import Mathlib

/-!
Shallow embedding of the k8s-nautobot-node-label-controller core.

The repository holds two variants of the reconcile loop:
* `main.go` — the richer variant with a short-circuit check (`hasAllLabels`),
  an empty-value guard on each label write, and a tiered requeue ladder;
* a second file (unnamed in the source tree) — a simpler variant without the
  short-circuit and without the empty-value guard, returning a zero requeue.

Both are embedded below.  Kubernetes label maps are modelled as association
lists with Go map read/write semantics (`lookupLabel` returns the zero value
`""` for an absent key, as Go map indexing does; `setLabel` replaces the
first binding or appends).  The effects of a reconcile invocation (object
store read, inventory lookup, object store write, logging) are made explicit:
the results of the external calls are inputs, and the trace of the invocation
(requeue delay in seconds, returned error, logged error, whether the
inventory was consulted, the node submitted to the write, the `updated`
flag) is the output.
-/

deriving instance DecidableEq for Except

namespace NodeLabeler

/-- A node label map: association list with Go map semantics. -/
abbrev LabelMap := List (String × String)

/-- Go map read `m[k]`: value of the first binding of `k`, or the zero value
`""` when absent. -/
def lookupLabel : LabelMap → String → String
  | [], _ => ""
  | (k', v) :: rest, k => if k' = k then v else lookupLabel rest k

/-- Go comma-ok read: whether the key is present in the map. -/
def hasKey : LabelMap → String → Bool
  | [], _ => false
  | (k', _) :: rest, k => if k' = k then true else hasKey rest k

/-- Go map write `m[k] = v`: replace the first binding of `k`, or append. -/
def setLabel : LabelMap → String → String → LabelMap
  | [], k, v => [(k, v)]
  | (k', v') :: rest, k, v =>
    if k' = k then (k', v) :: rest else (k', v') :: setLabel rest k v

/-- The managed zone label key (main.go lines 157, 188). -/
def zoneKey : String := "topology.kubernetes.io/zone"

/-- The managed rack label key (main.go lines 162, 189). -/
def rackKey : String := "topology.kubernetes.io/rack"

/-- The part of a corev1.Node the controller reads and writes: its name and
its label map.  Go distinguishes a nil map from an empty one, hence the
`Option`. -/
structure Node where
  name : String
  labels : Option LabelMap
deriving DecidableEq

/-- NautobotDeviceData (main.go lines 30-33). -/
structure NautobotDeviceData where
  siteName : String
  rackName : String
deriving DecidableEq

/-- hasAllLabels (main.go lines 183-192): the node already carries non-empty
values under both managed keys. -/
def hasAllLabels (node : Node) : Bool :=
  match node.labels with
  | none => false
  | some m =>
    hasKey m zoneKey && hasKey m rackKey &&
      (lookupLabel m zoneKey != "") && (lookupLabel m rackKey != "")

/-- One guarded label write of the richer Reconcile (main.go lines 156-165):
write the candidate only when it is non-empty and differs from the current
value, raising the `updated` flag; otherwise leave map and flag alone. -/
def applyKey (labels : LabelMap) (key cand : String) (updated : Bool) : LabelMap × Bool :=
  if cand ≠ "" ∧ lookupLabel labels key ≠ cand then
    (setLabel labels key cand, true)
  else (labels, updated)

/-- The label-update section of the richer Reconcile (main.go lines 151-165):
the zone write followed by the rack write, threading the map and the
`updated` flag. -/
def applyLabels (labels : LabelMap) (dd : NautobotDeviceData) : LabelMap × Bool :=
  let s1 := applyKey labels zoneKey dd.siteName false
  applyKey s1.1 rackKey dd.rackName s1.2

/-- One label write of the simpler Reconcile variant (second source file,
lines 141-150): change detection only, no empty-value guard. -/
def applyKeySimple (labels : LabelMap) (key cand : String) (updated : Bool) :
    LabelMap × Bool :=
  if lookupLabel labels key ≠ cand then
    (setLabel labels key cand, true)
  else (labels, updated)

/-- The label-update section of the simpler Reconcile variant (second source
file, lines 136-150). -/
def applyLabelsSimple (labels : LabelMap) (dd : NautobotDeviceData) : LabelMap × Bool :=
  let s1 := applyKeySimple labels zoneKey dd.siteName false
  applyKeySimple s1.1 rackKey dd.rackName s1.2

/-- Outcome of the object store read in step 1 of Reconcile, when it fails. -/
inductive GetErr where
  | notFound
  | other
deriving DecidableEq

/-- The spec's LookupError taxonomy for the inventory client. -/
inductive LookupError where
  | requestBuild
  | transport
  | upstreamStatus (code : Nat)
  | decodeFailure
  | deviceNotFound (nodeName : String)
deriving DecidableEq

/-- The inputs a single reconcile invocation consumes from its collaborators:
the object store read, the inventory lookup result (consulted only if the
control flow reaches the lookup), and whether the object store write fails. -/
structure ReconcileInput where
  fetch : Except GetErr Node
  lookup : Except LookupError NautobotDeviceData
  updateFails : Bool

/-- Observable trace of one reconcile invocation: requeue delay in seconds
(0 = none), the error returned to the driver, whether an error was logged,
whether the inventory lookup was performed, the node submitted to the object
store write (if any), and the value of the `updated` local at return. -/
structure ReconcileTrace where
  requeueAfter : Nat
  returnedError : Bool
  loggedError : Bool
  lookedUp : Bool
  wrote : Option Node
  updated : Bool
deriving DecidableEq

/-- Reconcile, richer variant (main.go lines 123-180): fetch, short-circuit
on `hasAllLabels` with a 12h requeue, inventory lookup with a logged error
and 5m requeue on failure, guarded label merge, conditional write with 1m
requeue and returned error on write failure, 1h requeue on a successful
write, 6h requeue when no update was needed. -/
def Reconcile (inp : ReconcileInput) : ReconcileTrace :=
  match inp.fetch with
  | Except.error GetErr.notFound =>
    { requeueAfter := 0, returnedError := false, loggedError := false,
      lookedUp := false, wrote := none, updated := false }
  | Except.error GetErr.other =>
    { requeueAfter := 0, returnedError := true, loggedError := false,
      lookedUp := false, wrote := none, updated := false }
  | Except.ok node =>
    if hasAllLabels node then
      { requeueAfter := 12 * 60 * 60, returnedError := false, loggedError := false,
        lookedUp := false, wrote := none, updated := false }
    else
      match inp.lookup with
      | Except.error _ =>
        { requeueAfter := 5 * 60, returnedError := false, loggedError := true,
          lookedUp := true, wrote := none, updated := false }
      | Except.ok dd =>
        let r := applyLabels (node.labels.getD []) dd
        if r.2 then
          if inp.updateFails then
            { requeueAfter := 60, returnedError := true, loggedError := true,
              lookedUp := true, wrote := some { name := node.name, labels := some r.1 },
              updated := true }
          else
            { requeueAfter := 60 * 60, returnedError := false, loggedError := false,
              lookedUp := true, wrote := some { name := node.name, labels := some r.1 },
              updated := true }
        else
          { requeueAfter := 6 * 60 * 60, returnedError := false, loggedError := false,
            lookedUp := true, wrote := none, updated := false }

/-- Reconcile, simpler variant (second source file, lines 115-161): fetch,
unconditional inventory lookup returning the lookup error to the driver on
failure, unguarded label merge, conditional write returning a wrapped error
on write failure; every path requeues with a zero delay. -/
def ReconcileSimple (inp : ReconcileInput) : ReconcileTrace :=
  match inp.fetch with
  | Except.error GetErr.notFound =>
    { requeueAfter := 0, returnedError := false, loggedError := false,
      lookedUp := false, wrote := none, updated := false }
  | Except.error GetErr.other =>
    { requeueAfter := 0, returnedError := true, loggedError := false,
      lookedUp := false, wrote := none, updated := false }
  | Except.ok node =>
    match inp.lookup with
    | Except.error _ =>
      { requeueAfter := 0, returnedError := true, loggedError := true,
        lookedUp := true, wrote := none, updated := false }
    | Except.ok dd =>
      let r := applyLabelsSimple (node.labels.getD []) dd
      if r.2 then
        if inp.updateFails then
          { requeueAfter := 0, returnedError := true, loggedError := false,
            lookedUp := true, wrote := some { name := node.name, labels := some r.1 },
            updated := true }
        else
          { requeueAfter := 0, returnedError := false, loggedError := false,
            lookedUp := true, wrote := some { name := node.name, labels := some r.1 },
            updated := true }
      else
        { requeueAfter := 0, returnedError := false, loggedError := false,
          lookedUp := true, wrote := none, updated := false }

/-- The node's label set after the invocation: the written map if a write was
submitted, the original map otherwise. -/
def finalLabels (tr : ReconcileTrace) (node : Node) : LabelMap :=
  match tr.wrote with
  | some n => n.labels.getD []
  | none => node.labels.getD []

/-! ## Inventory client (GetDeviceData, main.go lines 58-113) -/

/-- Go strings.Index specialised to one character: index of the first
occurrence, as an Option. -/
def indexOfChar : List Char → Char → Option Nat
  | [], _ => none
  | a :: rest, c => if a = c then some 0 else (indexOfChar rest c).map (· + 1)

/-- Go strings.Index: index of the first occurrence, or -1 when absent. -/
def strIndex (s : List Char) (c : Char) : Int :=
  match indexOfChar s c with
  | some i => (i : Int)
  | none => -1

/-- Hostname derivation of GetDeviceData (main.go lines 61-65): the part of
the node name before the first dot, but only when the first dot sits at a
positive index (`dotIndex > 0` in the source); otherwise the whole name. -/
def deriveHostname (nodeName : List Char) : List Char :=
  let dotIndex := strIndex nodeName '.'
  if dotIndex > 0 then nodeName.take dotIndex.toNat else nodeName

/-- The inventory lookup key, as a String. -/
def lookupKey (nodeName : String) : String :=
  String.mk (deriveHostname nodeName.toList)

/-- The URL GetDeviceData requests (main.go line 69). -/
def lookupURL (baseURL nodeName : String) : String :=
  baseURL ++ "/api/dcim/devices/?name=" ++ lookupKey nodeName

/-- One site or rack object of the Nautobot JSON envelope (main.go
lines 36-47). -/
structure NameDisplay where
  display : String
  name : String
deriving DecidableEq

/-- One entry of the results list of the Nautobot JSON envelope. -/
structure DeviceResult where
  site : NameDisplay
  rack : NameDisplay
deriving DecidableEq

/-- The Nautobot JSON envelope (deviceResponse, main.go lines 36-47). -/
structure DeviceResponse where
  results : List DeviceResult
deriving DecidableEq

/-- An HTTP response as GetDeviceData consumes it: the status code and the
decoded body (`none` when the body does not parse as the envelope). -/
structure HttpResponse where
  statusCode : Nat
  body : Option DeviceResponse
deriving DecidableEq

/-- Response handling of GetDeviceData (main.go lines 78-113): transport
failure, then the `!= 200` status check, then JSON decoding, then the
empty-results check, then field extraction with display fallback.
`httpResult = none` models a transport failure of the GET. -/
def GetDeviceData (nodeName : String) (httpResult : Option HttpResponse) :
    Except LookupError NautobotDeviceData :=
  match httpResult with
  | none => Except.error LookupError.transport
  | some resp =>
    if resp.statusCode ≠ 200 then
      Except.error (LookupError.upstreamStatus resp.statusCode)
    else
      match resp.body with
      | none => Except.error LookupError.decodeFailure
      | some dr =>
        match dr.results with
        | [] => Except.error (LookupError.deviceNotFound nodeName)
        | r :: _ =>
          let siteName := if r.site.name = "" then r.site.display else r.site.name
          let rackName := if r.rack.name = "" then r.rack.display else r.rack.name
          Except.ok { siteName := siteName, rackName := rackName }

/-! ## Helper lemmas about the label map operations -/

theorem lookupLabel_setLabel_self (m : LabelMap) (k v : String) :
    lookupLabel (setLabel m k v) k = v := by
  induction m with
  | nil => simp [setLabel, lookupLabel]
  | cons p rest ih =>
    by_cases h : p.1 = k <;> simp [setLabel, lookupLabel, h, ih]

theorem lookupLabel_setLabel_other (m : LabelMap) (k v k' : String) (h : k' ≠ k) :
    lookupLabel (setLabel m k v) k' = lookupLabel m k' := by
  induction m with
  | nil => simp [setLabel, lookupLabel, Ne.symm h]
  | cons p rest ih =>
    obtain ⟨p1, p2⟩ := p
    by_cases hp : p1 = k
    · subst hp
      simp [setLabel, lookupLabel, Ne.symm h]
    · simp [setLabel, lookupLabel, hp, ih]

theorem hasKey_setLabel_other (m : LabelMap) (k v k' : String) (h : k' ≠ k) :
    hasKey (setLabel m k v) k' = hasKey m k' := by
  induction m with
  | nil => simp [setLabel, hasKey, Ne.symm h]
  | cons p rest ih =>
    obtain ⟨p1, p2⟩ := p
    by_cases hp : p1 = k
    · subst hp
      simp [setLabel, hasKey, Ne.symm h]
    · simp [setLabel, hasKey, hp, ih]

theorem hasKey_of_lookupLabel_ne (m : LabelMap) (k : String)
    (h : lookupLabel m k ≠ "") : hasKey m k = true := by
  induction m with
  | nil => simp [lookupLabel] at h
  | cons p rest ih =>
    by_cases hp : p.1 = k
    · simp [hasKey, hp]
    · simp [lookupLabel, hp] at h
      simp [hasKey, hp, ih h]

/-- The two managed keys differ. -/
theorem zoneKey_ne_rackKey : zoneKey ≠ rackKey := by decide

/-! ## Helper lemmas about the guarded label writes -/

theorem applyKey_lookup_other (labels : LabelMap) (key cand : String) (u : Bool)
    (k : String) (hk : k ≠ key) :
    lookupLabel (applyKey labels key cand u).1 k = lookupLabel labels k := by
  unfold applyKey
  split_ifs with h
  · exact lookupLabel_setLabel_other labels key cand k hk
  · rfl

theorem applyKey_hasKey_other (labels : LabelMap) (key cand : String) (u : Bool)
    (k : String) (hk : k ≠ key) :
    hasKey (applyKey labels key cand u).1 k = hasKey labels k := by
  unfold applyKey
  split_ifs with h
  · exact hasKey_setLabel_other labels key cand k hk
  · rfl

theorem applyKey_no_erasure (labels : LabelMap) (key cand : String) (u : Bool)
    (k : String) (hk : lookupLabel labels k ≠ "") :
    lookupLabel (applyKey labels key cand u).1 k ≠ "" := by
  unfold applyKey
  split_ifs with h
  · by_cases hkk : k = key
    · subst hkk
      rw [lookupLabel_setLabel_self]
      exact h.1
    · rw [lookupLabel_setLabel_other labels key cand k hkk]
      exact hk
  · exact hk

theorem applyKey_skip_empty (labels : LabelMap) (key : String) (u : Bool) :
    applyKey labels key "" u = (labels, u) := by
  simp [applyKey]

theorem applyLabels_lookup_other (labels : LabelMap) (dd : NautobotDeviceData)
    (k : String) (hz : k ≠ zoneKey) (hr : k ≠ rackKey) :
    lookupLabel (applyLabels labels dd).1 k = lookupLabel labels k := by
  unfold applyLabels
  rw [applyKey_lookup_other _ _ _ _ _ hr, applyKey_lookup_other _ _ _ _ _ hz]

theorem applyLabels_hasKey_other (labels : LabelMap) (dd : NautobotDeviceData)
    (k : String) (hz : k ≠ zoneKey) (hr : k ≠ rackKey) :
    hasKey (applyLabels labels dd).1 k = hasKey labels k := by
  unfold applyLabels
  rw [applyKey_hasKey_other _ _ _ _ _ hr, applyKey_hasKey_other _ _ _ _ _ hz]

theorem applyLabels_no_erasure (labels : LabelMap) (dd : NautobotDeviceData)
    (k : String) (hk : lookupLabel labels k ≠ "") :
    lookupLabel (applyLabels labels dd).1 k ≠ "" := by
  unfold applyLabels
  exact applyKey_no_erasure _ _ _ _ _ (applyKey_no_erasure _ _ _ _ _ hk)

/-- Any node submitted to the object store write by the richer Reconcile is
the fetched node with the guarded label merge applied. -/
theorem Reconcile_wrote (inp : ReconcileInput) (node : Node) (n' : Node)
    (hf : inp.fetch = Except.ok node)
    (hw : (Reconcile inp).wrote = some n') :
    ∃ dd, inp.lookup = Except.ok dd ∧
      n' = ⟨node.name, some (applyLabels (node.labels.getD []) dd).1⟩ := by
  obtain ⟨f, lk, uf⟩ := inp
  simp only at hf
  subst hf
  cases hall : hasAllLabels node with
  | true => simp [Reconcile, hall] at hw
  | false =>
    cases lk with
    | error e => simp [Reconcile, hall] at hw
    | ok dd =>
      refine ⟨dd, rfl, ?_⟩
      by_cases hu : (applyLabels (node.labels.getD []) dd).2
      · cases uf <;> simp [Reconcile, hall, hu] at hw <;> exact hw.symm
      · simp [Reconcile, hall, hu] at hw

/-! ## Helper lemmas about the hostname index -/

theorem indexOfChar_not_mem (s : List Char) (c : Char) (h : c ∉ s) :
    indexOfChar s c = none := by
  induction s with
  | nil => rfl
  | cons a rest ih =>
    have ha : ¬a = c := fun hh => h (hh ▸ List.mem_cons_self a rest)
    simp [indexOfChar, ha, ih (fun hm => h (List.mem_cons_of_mem a hm))]

theorem indexOfChar_append (hd rest : List Char) (c : Char) (h : c ∉ hd) :
    indexOfChar (hd ++ c :: rest) c = some hd.length := by
  induction hd with
  | nil => simp [indexOfChar]
  | cons a tl ih =>
    have ha : ¬a = c := fun hh => h (hh ▸ List.mem_cons_self a tl)
    have htl : c ∉ tl := fun hm => h (List.mem_cons_of_mem a hm)
    simp [indexOfChar, ha, ih htl]

/-! ## Claims -/

/-- C2: for a node whose label map is absent or empty and a successful
inventory lookup returning siteName "dc1" and rackName "r12", the richer
Reconcile submits a write whose label set maps the zone key to "dc1" and the
rack key to "r12", and returns updated = true with the 1-hour requeue delay
and no error. -/
theorem C2_end_to_end (name : String) (l : Option LabelMap)
    (hl : l = none ∨ l = some []) :
    (Reconcile ⟨Except.ok ⟨name, l⟩, Except.ok ⟨"dc1", "r12"⟩, false⟩).updated = true ∧
    (Reconcile ⟨Except.ok ⟨name, l⟩, Except.ok ⟨"dc1", "r12"⟩, false⟩).requeueAfter
      = 60 * 60 ∧
    (Reconcile ⟨Except.ok ⟨name, l⟩, Except.ok ⟨"dc1", "r12"⟩, false⟩).returnedError
      = false ∧
    (Reconcile ⟨Except.ok ⟨name, l⟩, Except.ok ⟨"dc1", "r12"⟩, false⟩).wrote
      = some ⟨name, some [(zoneKey, "dc1"), (rackKey, "r12")]⟩ := by
  rcases hl with rfl | rfl <;> exact ⟨rfl, rfl, rfl, rfl⟩

/-- Witness for C2 at a concrete node with an absent label map. -/
theorem C2_end_to_end_witness :
    (Reconcile ⟨Except.ok ⟨"node1", none⟩, Except.ok ⟨"dc1", "r12"⟩, false⟩).updated
      = true ∧
    (Reconcile ⟨Except.ok ⟨"node1", none⟩, Except.ok ⟨"dc1", "r12"⟩, false⟩).requeueAfter
      = 60 * 60 ∧
    (Reconcile ⟨Except.ok ⟨"node1", none⟩, Except.ok ⟨"dc1", "r12"⟩, false⟩).returnedError
      = false ∧
    (Reconcile ⟨Except.ok ⟨"node1", none⟩, Except.ok ⟨"dc1", "r12"⟩, false⟩).wrote
      = some ⟨"node1", some [(zoneKey, "dc1"), (rackKey, "r12")]⟩ :=
  C2_end_to_end "node1" none (Or.inl rfl)

/-- C3: for every node whose current label set holds non-empty values for
both managed keys, the richer Reconcile terminates without consulting the
inventory and without a write, returning updated = false, no error, and the
12-hour requeue delay. -/
theorem C3_short_circuit (node : Node) (lk : Except LookupError NautobotDeviceData)
    (uf : Bool) (h : hasAllLabels node = true) :
    (Reconcile ⟨Except.ok node, lk, uf⟩).lookedUp = false ∧
    (Reconcile ⟨Except.ok node, lk, uf⟩).wrote = none ∧
    (Reconcile ⟨Except.ok node, lk, uf⟩).updated = false ∧
    (Reconcile ⟨Except.ok node, lk, uf⟩).requeueAfter = 12 * 60 * 60 ∧
    (Reconcile ⟨Except.ok node, lk, uf⟩).returnedError = false := by
  simp [Reconcile, h]

/-- Witness for C3 at a concrete fully-labelled node. -/
theorem C3_short_circuit_witness :
    (Reconcile ⟨Except.ok ⟨"node1", some [(zoneKey, "dc1"), (rackKey, "r12")]⟩,
        Except.ok ⟨"dc2", "r99"⟩, false⟩).lookedUp = false ∧
    (Reconcile ⟨Except.ok ⟨"node1", some [(zoneKey, "dc1"), (rackKey, "r12")]⟩,
        Except.ok ⟨"dc2", "r99"⟩, false⟩).wrote = none ∧
    (Reconcile ⟨Except.ok ⟨"node1", some [(zoneKey, "dc1"), (rackKey, "r12")]⟩,
        Except.ok ⟨"dc2", "r99"⟩, false⟩).updated = false ∧
    (Reconcile ⟨Except.ok ⟨"node1", some [(zoneKey, "dc1"), (rackKey, "r12")]⟩,
        Except.ok ⟨"dc2", "r99"⟩, false⟩).requeueAfter = 12 * 60 * 60 ∧
    (Reconcile ⟨Except.ok ⟨"node1", some [(zoneKey, "dc1"), (rackKey, "r12")]⟩,
        Except.ok ⟨"dc2", "r99"⟩, false⟩).returnedError = false :=
  C3_short_circuit ⟨"node1", some [(zoneKey, "dc1"), (rackKey, "r12")]⟩
    (Except.ok ⟨"dc2", "r99"⟩) false (by decide)

/-- C4: for every reconcile invocation of the richer variant in which the
inventory lookup fails with any LookupError, the invocation returns
updated = false, logs the error without returning it to the driver, requeues
after 5 minutes, and submits no write. -/
theorem C4_lookup_failure (node : Node) (e : LookupError) (uf : Bool)
    (h : hasAllLabels node = false) :
    (Reconcile ⟨Except.ok node, Except.error e, uf⟩).updated = false ∧
    (Reconcile ⟨Except.ok node, Except.error e, uf⟩).loggedError = true ∧
    (Reconcile ⟨Except.ok node, Except.error e, uf⟩).returnedError = false ∧
    (Reconcile ⟨Except.ok node, Except.error e, uf⟩).requeueAfter = 5 * 60 ∧
    (Reconcile ⟨Except.ok node, Except.error e, uf⟩).wrote = none := by
  simp [Reconcile, h]

/-- Witness for C4 at a concrete node and an upstream-status failure. -/
theorem C4_lookup_failure_witness :
    (Reconcile ⟨Except.ok ⟨"node1", none⟩,
        Except.error (LookupError.upstreamStatus 503), false⟩).updated = false ∧
    (Reconcile ⟨Except.ok ⟨"node1", none⟩,
        Except.error (LookupError.upstreamStatus 503), false⟩).loggedError = true ∧
    (Reconcile ⟨Except.ok ⟨"node1", none⟩,
        Except.error (LookupError.upstreamStatus 503), false⟩).returnedError = false ∧
    (Reconcile ⟨Except.ok ⟨"node1", none⟩,
        Except.error (LookupError.upstreamStatus 503), false⟩).requeueAfter = 5 * 60 ∧
    (Reconcile ⟨Except.ok ⟨"node1", none⟩,
        Except.error (LookupError.upstreamStatus 503), false⟩).wrote = none :=
  C4_lookup_failure ⟨"node1", none⟩ (LookupError.upstreamStatus 503) false (by decide)

/-- C6: for every device record with non-empty siteName and rackName and
every label map already holding zone = siteName and rack = rackName, the
label-update decision is empty and a re-run of the richer Reconcile with the
unchanged record submits no write and returns updated = false. -/
theorem C6_idempotent (name : String) (m : LabelMap) (dd : NautobotDeviceData)
    (uf : Bool)
    (hz : lookupLabel m zoneKey = dd.siteName)
    (hr : lookupLabel m rackKey = dd.rackName)
    (hzs : dd.siteName ≠ "") (hrs : dd.rackName ≠ "") :
    applyLabels m dd = (m, false) ∧
    (Reconcile ⟨Except.ok ⟨name, some m⟩, Except.ok dd, uf⟩).wrote = none ∧
    (Reconcile ⟨Except.ok ⟨name, some m⟩, Except.ok dd, uf⟩).updated = false := by
  have hkz : hasKey m zoneKey = true :=
    hasKey_of_lookupLabel_ne m zoneKey (by rw [hz]; exact hzs)
  have hkr : hasKey m rackKey = true :=
    hasKey_of_lookupLabel_ne m rackKey (by rw [hr]; exact hrs)
  have hall : hasAllLabels ⟨name, some m⟩ = true := by
    simp [hasAllLabels, hkz, hkr, hz, hr, bne_iff_ne, hzs, hrs]
  refine ⟨?_, ?_, ?_⟩
  · simp [applyLabels, applyKey, hz, hr]
  · simp [Reconcile, hall]
  · simp [Reconcile, hall]

/-- Witness for C6 at a concrete already-synced node. -/
theorem C6_idempotent_witness :
    applyLabels [(zoneKey, "dc1"), (rackKey, "r12")] ⟨"dc1", "r12"⟩
      = ([(zoneKey, "dc1"), (rackKey, "r12")], false) ∧
    (Reconcile ⟨Except.ok ⟨"node1", some [(zoneKey, "dc1"), (rackKey, "r12")]⟩,
        Except.ok ⟨"dc1", "r12"⟩, false⟩).wrote = none ∧
    (Reconcile ⟨Except.ok ⟨"node1", some [(zoneKey, "dc1"), (rackKey, "r12")]⟩,
        Except.ok ⟨"dc1", "r12"⟩, false⟩).updated = false :=
  C6_idempotent "node1" [(zoneKey, "dc1"), (rackKey, "r12")] ⟨"dc1", "r12"⟩ false
    (by decide) (by decide) (by decide) (by decide)

/-- C5: for every invocation of the richer Reconcile that submits a write,
every label key other than the two managed keys is unchanged in the
submitted label set, both in value and in presence: the merge never replaces
the node's label set. -/
theorem C5_frame (inp : ReconcileInput) (node : Node) (k : String) (n' : Node)
    (hf : inp.fetch = Except.ok node)
    (hz : k ≠ zoneKey) (hr : k ≠ rackKey)
    (hw : (Reconcile inp).wrote = some n') :
    lookupLabel (n'.labels.getD []) k = lookupLabel (node.labels.getD []) k ∧
    hasKey (n'.labels.getD []) k = hasKey (node.labels.getD []) k := by
  obtain ⟨dd, -, hn⟩ := Reconcile_wrote inp node n' hf hw
  subst hn
  exact ⟨applyLabels_lookup_other (node.labels.getD []) dd k hz hr,
    applyLabels_hasKey_other (node.labels.getD []) dd k hz hr⟩

/-- Witness for C5: a pre-existing unmanaged label survives a write
untouched. -/
theorem C5_frame_witness :
    lookupLabel ((Node.mk "node1"
        (some [("app", "x"), (zoneKey, "dc1"), (rackKey, "r12")])).labels.getD []) "app"
      = lookupLabel ((Node.mk "node1" (some [("app", "x")])).labels.getD []) "app" ∧
    hasKey ((Node.mk "node1"
        (some [("app", "x"), (zoneKey, "dc1"), (rackKey, "r12")])).labels.getD []) "app"
      = hasKey ((Node.mk "node1" (some [("app", "x")])).labels.getD []) "app" :=
  C5_frame ⟨Except.ok ⟨"node1", some [("app", "x")]⟩, Except.ok ⟨"dc1", "r12"⟩, false⟩
    ⟨"node1", some [("app", "x")]⟩ "app"
    ⟨"node1", some [("app", "x"), (zoneKey, "dc1"), (rackKey, "r12")]⟩
    rfl (by decide) (by decide) (by decide)

/-- C1 counterexample: the claim quantifies over any reconcile invocation of
the source, and the simpler variant lacks the empty-value guard: starting
from a node whose zone label is the non-empty "a", one invocation of the
simpler Reconcile with a device record whose siteName is empty persists an
empty zone value, overwriting the non-empty one. -/
theorem C1_erasure_in_simple_variant :
    lookupLabel ((Node.mk "node1" (some [(zoneKey, "a")])).labels.getD []) zoneKey
      = "a" ∧
    lookupLabel (finalLabels
        (ReconcileSimple ⟨Except.ok ⟨"node1", some [(zoneKey, "a")]⟩,
          Except.ok ⟨"", ""⟩, false⟩)
        ⟨"node1", some [(zoneKey, "a")]⟩) zoneKey = "" := by decide

/-- C1 amended: in the richer (canonical) Reconcile of main.go, the
label-update decision leaves the zone binding untouched whenever the
record's siteName is empty, and the rack binding untouched whenever the
record's rackName is empty; consequently a label already holding a non-empty
value is never overwritten with an empty value by an invocation of the
richer Reconcile. -/
theorem C1_no_erasure (m : LabelMap) (dd : NautobotDeviceData)
    (inp : ReconcileInput) (node : Node) (n' : Node) (k : String)
    (hs : dd.siteName = "")
    (hf : inp.fetch = Except.ok node)
    (hw : (Reconcile inp).wrote = some n')
    (hk : lookupLabel (node.labels.getD []) k ≠ "") :
    (lookupLabel (applyLabels m dd).1 zoneKey = lookupLabel m zoneKey ∧
      hasKey (applyLabels m dd).1 zoneKey = hasKey m zoneKey) ∧
    (dd.rackName = "" →
      lookupLabel (applyLabels m dd).1 rackKey = lookupLabel m rackKey ∧
      hasKey (applyLabels m dd).1 rackKey = hasKey m rackKey) ∧
    lookupLabel (n'.labels.getD []) k ≠ "" := by
  refine ⟨?_, ?_, ?_⟩
  · unfold applyLabels
    rw [hs, applyKey_skip_empty]
    exact ⟨applyKey_lookup_other m rackKey dd.rackName false zoneKey zoneKey_ne_rackKey,
      applyKey_hasKey_other m rackKey dd.rackName false zoneKey zoneKey_ne_rackKey⟩
  · intro hrs
    unfold applyLabels
    rw [hrs]
    rw [applyKey_skip_empty]
    exact ⟨applyKey_lookup_other m zoneKey dd.siteName false rackKey
        (Ne.symm zoneKey_ne_rackKey),
      applyKey_hasKey_other m zoneKey dd.siteName false rackKey
        (Ne.symm zoneKey_ne_rackKey)⟩
  · obtain ⟨dd', -, hn⟩ := Reconcile_wrote inp node n' hf hw
    subst hn
    exact applyLabels_no_erasure (node.labels.getD []) dd' k hk

/-- Witness for C1 amended: zone value "a" survives a richer-Reconcile write
performed for a record with empty siteName. -/
theorem C1_no_erasure_witness :
    (lookupLabel (applyLabels [(zoneKey, "a")] ⟨"", "r1"⟩).1 zoneKey
        = lookupLabel [(zoneKey, "a")] zoneKey ∧
      hasKey (applyLabels [(zoneKey, "a")] ⟨"", "r1"⟩).1 zoneKey
        = hasKey [(zoneKey, "a")] zoneKey) ∧
    (("r1" : String) = "" →
      lookupLabel (applyLabels [(zoneKey, "a")] ⟨"", "r1"⟩).1 rackKey
        = lookupLabel [(zoneKey, "a")] rackKey ∧
      hasKey (applyLabels [(zoneKey, "a")] ⟨"", "r1"⟩).1 rackKey
        = hasKey [(zoneKey, "a")] rackKey) ∧
    lookupLabel ((Node.mk "node1"
        (some [(zoneKey, "a"), (rackKey, "r1")])).labels.getD []) zoneKey ≠ "" :=
  C1_no_erasure [(zoneKey, "a")] ⟨"", "r1"⟩
    ⟨Except.ok ⟨"node1", some [(zoneKey, "a")]⟩, Except.ok ⟨"", "r1"⟩, false⟩
    ⟨"node1", some [(zoneKey, "a")]⟩
    ⟨"node1", some [(zoneKey, "a"), (rackKey, "r1")]⟩ zoneKey
    rfl rfl (by decide) (by decide)

/-- The two label-merge procedures agree when both candidate values are
non-empty. -/
theorem applyLabels_eq_simple (m : LabelMap) (dd : NautobotDeviceData)
    (h1 : dd.siteName ≠ "") (h2 : dd.rackName ≠ "") :
    applyLabels m dd = applyLabelsSimple m dd := by
  simp [applyLabels, applyLabelsSimple, applyKey, applyKeySimple, h1, h2]

/-- C7 counterexample: the two reconcile variants do not always persist the
same label set.  Starting from a node whose zone label is "a", a successful
lookup returning an empty siteName and rackName "r1" makes the richer
variant persist zone "a" and the simpler variant persist zone "". -/
theorem C7_variants_differ :
    finalLabels (Reconcile ⟨Except.ok ⟨"node1", some [(zoneKey, "a")]⟩,
        Except.ok ⟨"", "r1"⟩, false⟩) ⟨"node1", some [(zoneKey, "a")]⟩ ≠
    finalLabels (ReconcileSimple ⟨Except.ok ⟨"node1", some [(zoneKey, "a")]⟩,
        Except.ok ⟨"", "r1"⟩, false⟩) ⟨"node1", some [(zoneKey, "a")]⟩ := by decide

/-- C7 amended: the two variants persist the same label set whenever the
successful lookup carries non-empty siteName and rackName and the node does
not already hold non-empty values for both managed keys (so the richer
variant's short-circuit does not fire), with the write succeeding. -/
theorem C7_variants_agree (node : Node) (dd : NautobotDeviceData)
    (h1 : dd.siteName ≠ "") (h2 : dd.rackName ≠ "")
    (h3 : hasAllLabels node = false) :
    finalLabels (Reconcile ⟨Except.ok node, Except.ok dd, false⟩) node =
    finalLabels (ReconcileSimple ⟨Except.ok node, Except.ok dd, false⟩) node := by
  have he := applyLabels_eq_simple (node.labels.getD []) dd h1 h2
  by_cases hu : (applyLabelsSimple (node.labels.getD []) dd).2
  · simp [Reconcile, ReconcileSimple, finalLabels, h3, he, hu]
  · simp [Reconcile, ReconcileSimple, finalLabels, h3, he, hu]

/-- Witness for C7 amended at a concrete partially-labelled node. -/
theorem C7_variants_agree_witness :
    finalLabels (Reconcile ⟨Except.ok ⟨"node1", some [(zoneKey, "a")]⟩,
        Except.ok ⟨"dc1", "r12"⟩, false⟩) ⟨"node1", some [(zoneKey, "a")]⟩ =
    finalLabels (ReconcileSimple ⟨Except.ok ⟨"node1", some [(zoneKey, "a")]⟩,
        Except.ok ⟨"dc1", "r12"⟩, false⟩) ⟨"node1", some [(zoneKey, "a")]⟩ :=
  C7_variants_agree ⟨"node1", some [(zoneKey, "a")]⟩ ⟨"dc1", "r12"⟩
    (by decide) (by decide) (by decide)

/-- Nat-indexed characterisation of the hostname derivation: truncation
happens exactly when the first dot sits at a positive index. -/
theorem deriveHostname_eq (name : List Char) :
    deriveHostname name =
      (match indexOfChar name '.' with
       | some (Nat.succ j) => name.take (j + 1)
       | _ => name) := by
  unfold deriveHostname strIndex
  cases hidx : indexOfChar name '.' with
  | none => simp
  | some i =>
    cases i with
    | zero => simp
    | succ j =>
      have hpos : ((0 : Int) < ((j + 1 : Nat) : Int)) := by exact_mod_cast Nat.succ_pos j
      simp [hpos]

/-- C8 counterexample: the identity ".x" contains a dot, and the substring
before its first dot is empty, yet the derived key is not that substring
(the source truncates only when the first dot is at a positive index). -/
theorem C8_leading_dot :
    ".x".toList = [] ++ '.' :: "x".toList ∧ ('.' ∉ ([] : List Char)) ∧
    deriveHostname (".x".toList) ≠ [] := by decide

/-- C8 amended: the lookup key is the substring before the first dot
whenever that dot sits at a positive index (the identity splits as a
non-empty dot-free part followed by a dot), the whole identity when no dot
is present, and also the whole identity when the identity starts with a dot;
in particular "node1.cluster.local" gives "node1" and "node2" gives
"node2". -/
theorem C8_hostname (hd rest name : List Char) :
    (name = hd ++ '.' :: rest → '.' ∉ hd → hd ≠ [] → deriveHostname name = hd) ∧
    ('.' ∉ name → deriveHostname name = name) ∧
    (name = '.' :: rest → deriveHostname name = name) ∧
    deriveHostname ("node1.cluster.local".toList) = "node1".toList ∧
    deriveHostname ("node2".toList) = "node2".toList := by
  refine ⟨?_, ?_, ?_, by decide, by decide⟩
  · rintro rfl hmem hne
    rw [deriveHostname_eq, indexOfChar_append hd rest '.' hmem]
    obtain ⟨n, hn⟩ := Nat.exists_eq_succ_of_ne_zero
      (fun hz => hne (List.eq_nil_of_length_eq_zero hz))
    rw [hn]
    have hn' : n + 1 = hd.length := hn.symm
    show List.take (n + 1) (hd ++ '.' :: rest) = hd
    rw [hn', List.take_left]
  · intro hmem
    rw [deriveHostname_eq, indexOfChar_not_mem name '.' hmem]
  · rintro rfl
    rw [deriveHostname_eq]
    simp [indexOfChar]

/-- Witness for C8 amended at the two identities the spec names. -/
theorem C8_hostname_witness :
    deriveHostname ("node1.cluster.local".toList) = "node1".toList :=
  (C8_hostname ("node1".toList) ("cluster.local".toList)
    ("node1.cluster.local".toList)).1 (by decide) (by decide) (by decide)

/-- C9 counterexample: status 201 lies in the 2xx range, yet GetDeviceData
fails with the upstream-status error even on a well-formed body, because the
source checks for exactly 200. -/
theorem C9_status_201 :
    (200 ≤ 201 ∧ 201 < 300) ∧
    GetDeviceData "node1" (some ⟨201, some ⟨[⟨⟨"d", "s"⟩, ⟨"d", "r"⟩⟩]⟩⟩) =
      Except.error (LookupError.upstreamStatus 201) := by decide

/-- C9 amended: the lookup fails with the upstream-status error carrying the
HTTP status code exactly when the status differs from 200 (not: is outside
the 2xx range); every non-200 status produces that failure regardless of the
body, and no response with status 200 produces it. -/
theorem C9_status_check (nodeName : String) (resp : HttpResponse) :
    (resp.statusCode ≠ 200 →
      GetDeviceData nodeName (some resp) =
        Except.error (LookupError.upstreamStatus resp.statusCode)) ∧
    (resp.statusCode = 200 →
      ∀ c, GetDeviceData nodeName (some resp) ≠
        Except.error (LookupError.upstreamStatus c)) := by
  obtain ⟨code, body⟩ := resp
  constructor
  · intro h
    simp [GetDeviceData, h]
  · intro h c
    subst h
    cases body with
    | none => simp [GetDeviceData]
    | some dr =>
      obtain ⟨rs⟩ := dr
      cases rs with
      | nil => simp [GetDeviceData]
      | cons r rtl => simp [GetDeviceData]

/-- Witness for C9 amended: a 404 response yields the upstream-status error
with code 404. -/
theorem C9_status_check_witness :
    GetDeviceData "node1" (some ⟨404, none⟩) =
      Except.error (LookupError.upstreamStatus 404) :=
  (C9_status_check "node1" ⟨404, none⟩).1 (by decide)

/-- C10: for every non-empty node identity the derived lookup key is
non-empty, and for an identity whose first character is a dot the key is the
whole identity unchanged rather than the empty substring before that dot. -/
theorem C10_key_nonempty (name rest : List Char) (h : name ≠ []) :
    deriveHostname name ≠ [] ∧
    (name = '.' :: rest → deriveHostname name = name) := by
  constructor
  · rw [deriveHostname_eq]
    cases hidx : indexOfChar name '.' with
    | none => simpa using h
    | some i =>
      cases i with
      | zero => simpa using h
      | succ j =>
        obtain ⟨a, tl, rfl⟩ := List.exists_cons_of_ne_nil h
        simp [List.take_succ_cons]
  · rintro rfl
    rw [deriveHostname_eq]
    simp [indexOfChar]

/-- Witness for C10 at the identity ".internal". -/
theorem C10_key_nonempty_witness :
    deriveHostname (".internal".toList) ≠ [] ∧
    (".internal".toList = '.' :: "internal".toList →
      deriveHostname (".internal".toList) = ".internal".toList) :=
  C10_key_nonempty (".internal".toList) ("internal".toList) (by decide)

end NodeLabeler
